import Mathlib

/-!
Verification of the coordination layer of `slam_gmapping`
(`src/gmapping/src/slam_gmapping.cpp`), shallowly embedded in Lean 4.

Machine floating-point values (ranges, probabilities, tolerances) are
modelled as rationals `ℚ`; particle weights and the entropy computation,
which use `log`, are modelled over the reals `ℝ`.  Planar rigid transforms
(`tf2::Transform` restricted to the planar case actually constructed by the
code) are modelled by a rotation given as a cosine/sine pair together with a
translation.
-/

namespace SlamGMapping

/-! ### Scan-admission gate (`SlamGMapping::laserCallback`, lines 686-703)

The callback first drops any scan whose frame cannot be transformed to the
odometry frame (`buffer_.canTransform`, lines 694-699); only then does it
increment `laser_count_` and apply the throttle test
`(laser_count_ % throttle_scans_) != 0` (lines 701-703). -/

/-- One step of the admission gate, embedded from `laserCallback`
lines 694-703: `canTransform` is the availability of the odometry transform
for this scan, `count` is the current `laser_count_`.  Returns whether the
scan is admitted, together with the updated `laser_count_`. -/
def laserCallbackGate (throttle : Nat) (canTransform : Bool) (count : Nat) :
    Bool × Nat :=
  if canTransform = false then (false, count)
  else
    let count' := count + 1
    if count' % throttle ≠ 0 then (false, count') else (true, count')

/-- Run the admission gate over a stream of scans, each represented by its
transform-availability flag, starting from `laser_count_ = count`.  Produces
the per-scan admission decision. -/
def runLaserGate (throttle : Nat) : List Bool → Nat → List Bool
  | [], _ => []
  | a :: rest, count =>
    let r := laserCallbackGate throttle a count
    r.1 :: runLaserGate throttle rest r.2

/-- Modelled from the spec (§4.3, §8): the gate the specification describes,
which counts every incoming scan and evaluates the throttle test before the
transform-availability check. -/
def specGateStep (throttle : Nat) (canTransform : Bool) (count : Nat) :
    Bool × Nat :=
  let count' := count + 1
  if count' % throttle ≠ 0 then (false, count')
  else if canTransform = false then (false, count') else (true, count')

/-- Modelled from the spec: run the spec's gate over a stream of
transform-availability flags. -/
def runSpecGate (throttle : Nat) : List Bool → Nat → List Bool
  | [], _ => []
  | a :: rest, count =>
    let r := specGateStep throttle a count
    r.1 :: runSpecGate throttle rest r.2

/-! ### Range substitution and reversal (`SlamGMapping::addScan`, lines 632-657) -/

/-- The per-beam substitution of `addScan` (lines 642-645 and 652-655): a
reading strictly below `range_min` is replaced by `range_max`, every other
reading passes through unchanged. -/
def filterRange (range_min range_max r : ℚ) : ℚ :=
  if r < range_min then range_max else r

/-- The `ranges_double` array built by `addScan` (lines 633-657): when
`do_reverse_range_` is set, entry `i` is the substituted reading at input
index `num_ranges - i - 1`; otherwise entry `i` is the substituted reading at
input index `i`. -/
def rangesDouble (do_reverse_range : Bool) (range_min range_max : ℚ)
    (ranges : List ℚ) : List ℚ :=
  if do_reverse_range then
    List.ofFn (fun i : Fin ranges.length =>
      filterRange range_min range_max
        (ranges.get ⟨ranges.length - i.1 - 1, by omega⟩))
  else
    ranges.map (filterRange range_min range_max)

/-! ### Planar rigid transforms (`tf2::Transform` as used by this file)

Every transform this file constructs is planar: a rotation about z (stored
here as the cosine/sine pair of its yaw) plus a translation `(x, y)` (the z
translation of every transform built in `laserCallback` is 0).  `rmul` is
`tf2::Transform::operator*`, `rinv` is `tf2::Transform::inverse` (transpose
of the rotation matrix, negated rotated translation). -/

@[ext]
structure Rigid2 where
  c : ℚ
  s : ℚ
  x : ℚ
  y : ℚ
  deriving DecidableEq, Repr

/-- Composition of planar rigid transforms (rotation matrices multiply,
translation is rotated then offset). -/
def rmul (a b : Rigid2) : Rigid2 :=
  { c := a.c * b.c - a.s * b.s
    s := a.s * b.c + a.c * b.s
    x := a.c * b.x - a.s * b.y + a.x
    y := a.s * b.x + a.c * b.y + a.y }

/-- Embedding of `tf2::Transform::inverse`: transpose the rotation, negate
the transposed-rotated translation. -/
def rinv (a : Rigid2) : Rigid2 :=
  { c := a.c
    s := -a.s
    x := -(a.c * a.x + a.s * a.y)
    y := -(-a.s * a.x + a.c * a.y) }

/-- The identity transform (`createQuaternionFromRPY(0,0,0)`, zero origin). -/
def rident : Rigid2 := { c := 1, s := 0, x := 0, y := 0 }

/-- A transform has a genuine rotation part when its cosine/sine pair lies on
the unit circle. -/
def IsRot (a : Rigid2) : Prop := a.c ^ 2 + a.s ^ 2 = 1

/-- A planar pose `(x, y, theta)` (`GMapping::OrientedPoint`), with the yaw
`theta` carried as its cosine/sine pair so that the embedding stays
computable. -/
structure OrientedPoint where
  c : ℚ
  s : ℚ
  x : ℚ
  y : ℚ
  deriving DecidableEq, Repr

/-- Embedding of
`tf2::Transform(createQuaternionFromRPY(0, 0, p.theta), tf2::Vector3(p.x, p.y, 0.0))`:
the planar rigid transform with yaw `p.theta` and translation `(p.x, p.y, 0)`
(lines 726-727). -/
def rigidOfPose (p : OrientedPoint) : Rigid2 :=
  { c := p.c, s := p.s, x := p.x, y := p.y }

/-- Lines 726-731 of `laserCallback`: the value stored into `map_to_odom_`
after a successfully processed scan, from the mapper's best pose `mpose` and
the odometry pose `odom_pose`. -/
def mapToOdomUpdate (mpose odom_pose : OrientedPoint) : Rigid2 :=
  let laser_to_map := rinv (rigidOfPose mpose)
  let odom_to_laser := rigidOfPose odom_pose
  rinv (rmul odom_to_laser laser_to_map)

/-! ### Odometry pose lookup (`SlamGMapping::getOdomPose`, lines 389-434)

The transform lookup is modelled by its outcome: `some t` when
`buffer_.lookupTransform(odom_frame_, laser_frame_, tp, 0.1s)` resolves to
the transform `t`, `none` when it throws `tf2::TransformException`.  The
function records every `(target, source)` frame pair it looks up, and every
warning it logs, so that the failure path can be examined. -/

/-- Coordinate frame names appearing in the source. -/
inductive Frame
  | odom
  | laser
  | base
  | map
  deriving DecidableEq, Repr

/-- Log events emitted on the failure paths of the embedded functions. -/
inductive LogEvent
  | warnOdomPoseFailed
  | warnLaserPoseFailed
  | warnLaserOrientationFailed
  | warnNotPlanar
  deriving DecidableEq, Repr

/-- Embedding of `getOdomPose`: `lookup` is the outcome of the single
`lookupTransform(odom_frame_, laser_frame_, ...)` call, `centered_laser_pose`
is the member transform of the same name, and `gmap_pose` is the value held
by the caller's out-parameter on entry.  Returns the boolean result, the
out-parameter's value on exit, the list of frame pairs looked up, and the
log events emitted. -/
def getOdomPose (lookup : Option Rigid2) (centered_laser_pose : Rigid2)
    (gmap_pose : OrientedPoint) :
    Bool × OrientedPoint × List (Frame × Frame) × List LogEvent :=
  match lookup with
  | none =>
      (false, gmap_pose, [(Frame.odom, Frame.laser)], [LogEvent.warnOdomPoseFailed])
  | some transform =>
      let odom_pose := rmul transform centered_laser_pose
      (true, { c := odom_pose.c, s := odom_pose.s, x := odom_pose.x, y := odom_pose.y },
        [(Frame.odom, Frame.laser)], [])

/-! ### Geometry resolution (`SlamGMapping::initMapper`, lines 436-619)

The two `lookupTransform(base_frame_, laser_frame_, ...)` calls are modelled
by their outcomes; the second determines the measured up-vector `up`, of
which only the z-component matters to the planar-mount check
`fabs(fabs(up.z()) - 1) > 0.001` (line 515).  After that check the function
has no further failure return. -/

/-- Result of `initMapper` as a function of the two transform-lookup
outcomes and the measured up-vector z-component: `false` on either lookup
failure or a non-planar mount, `true` otherwise.  The second component is
the log trace of the failure paths. -/
def initMapperResult (laserPoseLookup : Option Rigid2) (upLookup : Option ℚ) :
    Bool × List LogEvent :=
  match laserPoseLookup with
  | none => (false, [LogEvent.warnLaserPoseFailed])
  | some _ =>
      match upLookup with
      | none => (false, [LogEvent.warnLaserOrientationFailed])
      | some upz =>
          if abs (abs upz - 1) > 1 / 1000 then (false, [LogEvent.warnNotPlanar])
          else (true, [])

/-! ### Admitted-scan processing (`SlamGMapping::addScan`, lines 621-684)

`addScan` first calls `getOdomPose` (returning `false` on failure, line
624-626), then rejects any scan whose beam count differs from
`gsp_laser_beam_count_` (lines 628-630), and only then builds
`ranges_double` and hands a reading to `gsp_->processScan`.  The value fed
to the filter is modelled as the pose/range pair; `none` means `addScan`
returned `false` before reaching `processScan`. -/

/-- Embedding of `addScan` up to the `processScan` call: returns the pose
and the filter-visible range array handed to the mapper, or `none` when the
scan is rejected first. -/
def addScan (odomLookup : Option Rigid2) (centered_laser_pose : Rigid2)
    (gmap_pose : OrientedPoint) (gsp_laser_beam_count : Nat)
    (do_reverse_range : Bool) (range_min range_max : ℚ) (ranges : List ℚ) :
    Option (OrientedPoint × List ℚ) :=
  if (getOdomPose odomLookup centered_laser_pose gmap_pose).1 = false then none
  else if ranges.length ≠ gsp_laser_beam_count then none
  else some ((getOdomPose odomLookup centered_laser_pose gmap_pose).2.1,
    rangesDouble do_reverse_range range_min range_max ranges)

/-! ### Pose entropy (`SlamGMapping::computePoseEntropy`, lines 747-766) -/

/-- Embedding of `computePoseEntropy` over the list of particle weights:
`weight_total` is the sum of all weights; each particle whose normalized
weight is strictly positive contributes `(w/W) * log (w/W)`; the function
returns the negated accumulator. -/
noncomputable def computePoseEntropy (ws : List ℝ) : ℝ :=
  let weight_total := ws.sum
  let entropy := (ws.map (fun w =>
    if w / weight_total > 0 then w / weight_total * Real.log (w / weight_total)
    else 0)).sum ;
  -entropy

/-! ### Grid rasterization (`SlamGMapping::updateMap`, lines 848-866)

Per cell: `assert(occ <= 1.0)`, then `occ < 0 ↦ -1` (unknown),
`occ > occ_thresh_ ↦ 100` (occupied), otherwise `0` (free).  An assertion
failure is modelled as `none`. -/

/-- The published value of one grid cell with probability `occ`, given the
occupancy threshold: `none` models a failure of `assert(occ <= 1.0)`. -/
def updateMapCell (occ_thresh occ : ℚ) : Option Int :=
  if ¬ occ ≤ 1 then none
  else if occ < 0 then some (-1)
  else if occ > occ_thresh then some 100
  else some 0

/-! ## Helper lemmas -/

/-- The `ranges_double` array of `addScan` is: reverse the input when
`do_reverse_range_` is set, then substitute each reading through
`filterRange`. -/
theorem rangesDouble_spec (do_reverse_range : Bool) (range_min range_max : ℚ)
    (ranges : List ℚ) :
    rangesDouble do_reverse_range range_min range_max ranges =
      (if do_reverse_range then ranges.reverse else ranges).map
        (filterRange range_min range_max) := by
  cases do_reverse_range with
  | false => simp [rangesDouble]
  | true =>
    simp only [rangesDouble, if_pos]
    apply List.ext_getElem
    · simp
    · intro n h1 h2
      simp only [List.getElem_ofFn, List.getElem_map, List.getElem_reverse,
        List.get_eq_getElem]
      exact congrArg (filterRange range_min range_max) (getElem_congr (by omega))

/-! ## Claim C2 -/

/-- C2: for every admitted scan (one for which `addScan` reaches
`processScan`), the filter-visible range array is obtained by first reversing
the beam order when `do_reverse_range_` is set and then substituting: every
reading strictly below `range_min` becomes exactly `range_max`, every other
reading passes through unchanged. -/
theorem addScan_substitution (odomLookup : Option Rigid2)
    (centered_laser_pose : Rigid2) (gmap_pose : OrientedPoint)
    (gsp_laser_beam_count : Nat) (do_reverse_range : Bool)
    (range_min range_max : ℚ) (ranges : List ℚ) (p : OrientedPoint)
    (arr : List ℚ)
    (h : addScan odomLookup centered_laser_pose gmap_pose gsp_laser_beam_count
        do_reverse_range range_min range_max ranges = some (p, arr)) :
    arr = (if do_reverse_range then ranges.reverse else ranges).map
        (fun r => if r < range_min then range_max else r) := by
  unfold addScan at h
  split at h
  · exact absurd h (by simp)
  · split at h
    · exact absurd h (by simp)
    · have harr : arr = rangesDouble do_reverse_range range_min range_max ranges := by
        have hpair := (Option.some.injEq _ _).mp h
        exact (congrArg Prod.snd hpair.symm)
      rw [harr, rangesDouble_spec]
      rfl

/-- Witness for C2: the end-to-end scenario of the spec (§8): three beams,
`range_min = 1/10`, `range_max = 10`, ranges `[1/20, 5, 999/100]`, reversed
order, identity odometry transform. -/
theorem addScan_substitution_witness :
    (addScan (some rident) rident ⟨1, 0, 0, 0⟩ 3 true (1 / 10) 10
        [1 / 20, 5, 999 / 100] =
      some (⟨1, 0, 0, 0⟩, [999 / 100, 5, 10])) ∧
    ([999 / 100, 5, 10] : List ℚ) =
      (if true then ([1 / 20, 5, 999 / 100] : List ℚ).reverse
       else [1 / 20, 5, 999 / 100]).map
        (fun r => if r < 1 / 10 then 10 else r) := by
  have hA : addScan (some rident) rident ⟨1, 0, 0, 0⟩ 3 true (1 / 10) 10
      [1 / 20, 5, 999 / 100] = some (⟨1, 0, 0, 0⟩, [999 / 100, 5, 10]) := by
    simp only [addScan, getOdomPose, rangesDouble_spec]
    norm_num [rmul, rident, filterRange]
  exact ⟨hA, addScan_substitution (some rident) rident ⟨1, 0, 0, 0⟩ 3 true
      (1 / 10) 10 [1 / 20, 5, 999 / 100] ⟨1, 0, 0, 0⟩ [999 / 100, 5, 10] hA⟩

/-! ## Claim C8 -/

/-- C8: for identical physical geometry, processing a scan with
`do_reverse_range_ = true` and reversed input ranges yields exactly the same
filter-visible beam sequence as processing the forward scan with
`do_reverse_range_ = false` and unreversed ranges. -/
theorem rangesDouble_reverse_equiv (range_min range_max : ℚ)
    (ranges : List ℚ) :
    rangesDouble true range_min range_max ranges.reverse =
      rangesDouble false range_min range_max ranges := by
  rw [rangesDouble_spec, rangesDouble_spec]
  simp

/-! ## Claim C9 -/

/-- C9: after geometry resolution has fixed `gsp_laser_beam_count_`, a scan
whose beam count differs is rejected: `addScan` returns failure before
feeding the filter (it never truncates or pads the range array). -/
theorem addScan_beam_count_reject (odomLookup : Option Rigid2)
    (centered_laser_pose : Rigid2) (gmap_pose : OrientedPoint)
    (gsp_laser_beam_count : Nat) (do_reverse_range : Bool)
    (range_min range_max : ℚ) (ranges : List ℚ)
    (h : ranges.length ≠ gsp_laser_beam_count) :
    addScan odomLookup centered_laser_pose gmap_pose gsp_laser_beam_count
      do_reverse_range range_min range_max ranges = none := by
  unfold addScan
  by_cases h1 : (getOdomPose odomLookup centered_laser_pose gmap_pose).1 = false
  · rw [if_pos h1]
  · rw [if_neg h1, if_pos h]

/-- Witness for C9: a 3-beam scan against a recorded beam count of 5 is
rejected even though the odometry lookup succeeds. -/
theorem addScan_beam_count_reject_witness :
    ([1, 2, 3] : List ℚ).length ≠ 5 ∧
    addScan (some rident) rident ⟨1, 0, 0, 0⟩ 5 false 0 10 [1, 2, 3] = none :=
  ⟨by decide, addScan_beam_count_reject (some rident) rident ⟨1, 0, 0, 0⟩ 5
      false 0 10 [1, 2, 3] (by decide)⟩

/-! ## Claim C10 -/

/-- C10: when the transform lookup fails, `getOdomPose` returns `false` and
the caller-supplied out-parameter `gmap_pose` is left completely unchanged —
it is assigned only on the success path. -/
theorem getOdomPose_failure_preserves_pose (centered_laser_pose : Rigid2)
    (gmap_pose : OrientedPoint) :
    (getOdomPose none centered_laser_pose gmap_pose).1 = false ∧
    (getOdomPose none centered_laser_pose gmap_pose).2.1 = gmap_pose :=
  ⟨rfl, rfl⟩

/-! ## Claim C5 -/

/-- C5 counterexample: on a failed lookup `getOdomPose` reports failure after
the single primary `(odom_frame_, laser_frame_)` lookup — contrary to the
claim, it performs no diagnostic fan-out lookup across any further frame
names before returning. -/
theorem getOdomPose_no_fanout :
    (getOdomPose none rident ⟨1, 0, 0, 0⟩).1 = false ∧
    (getOdomPose none rident ⟨1, 0, 0, 0⟩).2.2.1 = [(Frame.odom, Frame.laser)] ∧
    ∀ pr ∈ (getOdomPose none rident ⟨1, 0, 0, 0⟩).2.2.1,
      pr = (Frame.odom, Frame.laser) := by
  refine ⟨rfl, rfl, ?_⟩
  intro pr hpr
  simpa [getOdomPose] using hpr

/-- C5 (amended): when the odometry pose lookup fails, `getOdomPose` logs one
warning carrying the transform error and immediately reports failure to the
caller; the only transform lookup performed is the primary
`(odom_frame_, laser_frame_)` one, and no fan-out lookup over further frame
names happens. -/
theorem getOdomPose_failure_behavior (centered_laser_pose : Rigid2)
    (gmap_pose : OrientedPoint) :
    getOdomPose none centered_laser_pose gmap_pose =
      (false, gmap_pose, [(Frame.odom, Frame.laser)],
        [LogEvent.warnOdomPoseFailed]) :=
  rfl

/-! ## Claim C3 -/

/-- C3: `initMapper` reports failure (returns `false`, it does not raise)
exactly when a transform lookup fails or the measured up-vector z-component
`u` satisfies `| |u| - 1 | > 0.001`; in particular it rejects `u = 0.95` and
accepts `u = -1.0005`. -/
theorem initMapper_planar_tolerance :
    (∀ (lp : Option Rigid2) (u : Option ℚ),
      (initMapperResult lp u).1 = false ↔
        lp = none ∨ u = none ∨
          ∃ z, u = some z ∧ abs (abs z - 1) > 1 / 1000) ∧
    (initMapperResult (some rident) (some (95 / 100))).1 = false ∧
    (initMapperResult (some rident) (some (-(10005 / 10000)))).1 = true := by
  refine ⟨?_, ?_, ?_⟩
  · intro lp u
    cases lp with
    | none => simp [initMapperResult]
    | some t =>
      cases u with
      | none => simp [initMapperResult]
      | some z =>
        simp only [initMapperResult]
        split_ifs with hz
        · simp
          simpa [one_div] using hz
        · simp
          simpa [one_div, not_lt] using hz
  · have hz : abs (abs (95 / 100 : ℚ) - 1) > 1 / 1000 := by
      rw [abs_of_nonneg (by norm_num : (0 : ℚ) ≤ 95 / 100)]
      rw [abs_of_nonpos (by norm_num : (95 / 100 : ℚ) - 1 ≤ 0)]
      norm_num
    simp only [initMapperResult]
    rw [if_pos hz]
  · have hz : ¬ abs (abs (-(10005 / 10000) : ℚ) - 1) > 1 / 1000 := by
      rw [abs_of_nonpos (by norm_num : (-(10005 / 10000) : ℚ) ≤ 0)]
      rw [abs_of_nonneg (by norm_num : (0 : ℚ) ≤ -(-(10005 / 10000) : ℚ) - 1)]
      norm_num
    simp only [initMapperResult]
    rw [if_neg hz]

/-! ## Claim C1 -/

/-- C1 counterexample: with `throttle_scans_ = 2` and a stream of two scans
whose first cannot be transformed to the odometry frame, the code's gate
disagrees with the gate the claim describes (count every scan, throttle test
before the transform check); moreover flipping the transform availability of
the first — dropped — scan changes the admission of the second, so transform
availability for dropped scans does affect which scans are admitted. -/
theorem laserCallback_gate_counterexample :
    runLaserGate 2 [false, true] 0 ≠ runSpecGate 2 [false, true] 0 ∧
    (runLaserGate 2 [false, true] 0).getD 1 false = false ∧
    (runLaserGate 2 [true, true] 0).getD 1 false = true := by
  refine ⟨by decide, by decide, by decide⟩

/-- C1 (amended): the transform-availability check runs first; a scan that
cannot be transformed is dropped without being counted.  Scan `i` is admitted
iff it is transformable and the number of transformable scans among the first
`i + 1` (added to the starting count) satisfies
`(count mod throttle_scans_) == 0`. -/
theorem laserCallback_gate_admission (flags : List Bool) :
    ∀ (throttle c i : Nat),
    (runLaserGate throttle flags c).getD i false =
      (flags.getD i false &&
        decide ((c + (flags.take (i + 1)).count true) % throttle = 0)) := by
  induction flags with
  | nil => intro throttle c i; simp [runLaserGate]
  | cons a rest ih =>
    intro throttle c i
    cases i with
    | zero =>
      cases a with
      | false => simp [runLaserGate, laserCallbackGate]
      | true =>
        by_cases hm : (c + 1) % throttle = 0 <;>
          simp [runLaserGate, laserCallbackGate, hm, List.count_cons]
    | succ j =>
      cases a with
      | false =>
        have h2 : (laserCallbackGate throttle false c).2 = c := by
          simp [laserCallbackGate]
        simp only [runLaserGate, List.getD_cons_succ]
        rw [h2, ih throttle c j]
        simp [List.count_cons]
      | true =>
        have h2 : (laserCallbackGate throttle true c).2 = c + 1 := by
          by_cases hm : (c + 1) % throttle = 0 <;>
            simp [laserCallbackGate, hm]
        simp only [runLaserGate, List.getD_cons_succ]
        rw [h2, ih throttle (c + 1) j]
        have harith : c + 1 + (rest.take (j + 1)).count true =
            c + ((rest.take (j + 1)).count true + 1) := by omega
        simp [List.count_cons, harith]

/-! ## Claim C4 -/

/-- C4: for every cell probability `occ ≤ 1` the published cell value is the
unknown sentinel `-1` when `occ < 0`, the occupied sentinel `100` when
`occ > occ_thresh_`, and the free sentinel `0` otherwise; in particular a
probability exactly equal to the threshold is free, any negative probability
(such as `-0.001`) is unknown, and `1.0` does not trip the `occ <= 1.0`
assertion. -/
theorem updateMap_cell_classification (occ_thresh : ℚ)
    (h1 : 0 ≤ occ_thresh) (h2 : occ_thresh ≤ 1) :
    (∀ occ : ℚ, occ < 0 → updateMapCell occ_thresh occ = some (-1)) ∧
    (∀ occ : ℚ, occ ≤ 1 → occ_thresh < occ →
      updateMapCell occ_thresh occ = some 100) ∧
    (∀ occ : ℚ, 0 ≤ occ → occ ≤ occ_thresh →
      updateMapCell occ_thresh occ = some 0) ∧
    updateMapCell occ_thresh occ_thresh = some 0 ∧
    updateMapCell occ_thresh (-(1 / 1000)) = some (-1) ∧
    updateMapCell occ_thresh 1 ≠ none := by
  refine ⟨?_, ?_, ?_, ?_, ?_, ?_⟩
  · intro occ hocc
    simp only [updateMapCell]
    split_ifs <;> first | rfl | (exfalso; push_neg at *; linarith)
  · intro occ hle hgt
    simp only [updateMapCell]
    split_ifs <;> first | rfl | (exfalso; push_neg at *; linarith)
  · intro occ hnn hth
    simp only [updateMapCell]
    split_ifs <;> first | rfl | (exfalso; push_neg at *; linarith)
  · simp only [updateMapCell]
    split_ifs <;> first | rfl | (exfalso; push_neg at *; linarith)
  · simp only [updateMapCell]
    split_ifs <;> first | rfl | (exfalso; push_neg at *; linarith)
  · simp only [updateMapCell]
    rw [if_neg (not_not_intro (le_refl (1 : ℚ)))]
    split_ifs <;> simp

/-- Witness for C4 at the default threshold `occ_thresh_ = 0.25`. -/
theorem updateMap_cell_classification_witness :
    ((0 : ℚ) ≤ 1 / 4 ∧ (1 / 4 : ℚ) ≤ 1) ∧
    updateMapCell (1 / 4) (1 / 4) = some 0 ∧
    updateMapCell (1 / 4) (-(1 / 1000)) = some (-1) ∧
    updateMapCell (1 / 4) 1 ≠ none :=
  ⟨⟨by norm_num, by norm_num⟩,
    (updateMap_cell_classification (1 / 4) (by norm_num) (by norm_num)).2.2.2.1,
    (updateMap_cell_classification (1 / 4) (by norm_num) (by norm_num)).2.2.2.2.1,
    (updateMap_cell_classification (1 / 4) (by norm_num) (by norm_num)).2.2.2.2.2⟩

/-! ## Claim C6 -/

theorem isRot_rinv {a : Rigid2} (h : IsRot a) : IsRot (rinv a) := by
  simpa [IsRot, rinv, neg_sq] using h

theorem isRot_rmul {a b : Rigid2} (ha : IsRot a) (hb : IsRot b) :
    IsRot (rmul a b) := by
  have ha' : a.c ^ 2 + a.s ^ 2 = 1 := ha
  have hb' : b.c ^ 2 + b.s ^ 2 = 1 := hb
  show (rmul a b).c ^ 2 + (rmul a b).s ^ 2 = 1
  simp only [rmul]
  linear_combination (b.c ^ 2 + b.s ^ 2) * ha' + hb'

theorem rmul_rinv_self {a : Rigid2} (h : IsRot a) : rmul a (rinv a) = rident := by
  have h' : a.c ^ 2 + a.s ^ 2 = 1 := h
  ext
  · simp only [rmul, rinv, rident]; linear_combination h'
  · simp only [rmul, rinv, rident]; ring
  · simp only [rmul, rinv, rident]; linear_combination (-a.x) * h'
  · simp only [rmul, rinv, rident]; linear_combination (-a.y) * h'

/-- C6: on every successfully processed scan, the value stored into
`map_to_odom_` is exactly `inverse(odom_to_laser * laser_to_map)` with
`laser_to_map = inverse(rigid(mpose))` and `odom_to_laser = rigid(odom_pose)`,
`rigid` being the planar rigid transform of a pose; composing
`odom_to_laser * laser_to_map` with the stored correction yields the identity
transform. -/
theorem laserCallback_map_to_odom (mpose odom_pose : OrientedPoint)
    (hm : IsRot (rigidOfPose mpose)) (ho : IsRot (rigidOfPose odom_pose)) :
    mapToOdomUpdate mpose odom_pose =
      rinv (rmul (rigidOfPose odom_pose) (rinv (rigidOfPose mpose))) ∧
    rmul (rmul (rigidOfPose odom_pose) (rinv (rigidOfPose mpose)))
        (mapToOdomUpdate mpose odom_pose) = rident := by
  refine ⟨rfl, ?_⟩
  have hx : IsRot (rmul (rigidOfPose odom_pose) (rinv (rigidOfPose mpose))) :=
    isRot_rmul ho (isRot_rinv hm)
  exact rmul_rinv_self hx

/-- Witness for C6: best pose with yaw cosine/sine `(3/5, 4/5)` at `(1, 2)`,
odometry pose at the origin. -/
theorem laserCallback_map_to_odom_witness :
    IsRot (rigidOfPose ⟨3 / 5, 4 / 5, 1, 2⟩) ∧
    IsRot (rigidOfPose ⟨1, 0, 0, 0⟩) ∧
    rmul (rmul (rigidOfPose ⟨1, 0, 0, 0⟩) (rinv (rigidOfPose ⟨3 / 5, 4 / 5, 1, 2⟩)))
        (mapToOdomUpdate ⟨3 / 5, 4 / 5, 1, 2⟩ ⟨1, 0, 0, 0⟩) = rident :=
  ⟨by norm_num [IsRot, rigidOfPose],
    by norm_num [IsRot, rigidOfPose],
    (laserCallback_map_to_odom ⟨3 / 5, 4 / 5, 1, 2⟩ ⟨1, 0, 0, 0⟩
      (by norm_num [IsRot, rigidOfPose])
      (by norm_num [IsRot, rigidOfPose])).2⟩

/-! ## Claim C7 -/

theorem list_sum_nonpos {l : List ℝ} (h : ∀ x ∈ l, x ≤ 0) : l.sum ≤ 0 := by
  induction l with
  | nil => simp
  | cons a t ih =>
    simp only [List.sum_cons]
    have ha := h a (by simp)
    have ht := ih (fun x hx => h x (by simp [hx]))
    linarith

theorem sum_map_if_filter (W : ℝ) (g : ℝ → ℝ) (l : List ℝ) :
    (l.map (fun w => if 0 < w / W then g w else 0)).sum =
      ((l.filter (fun w => decide (0 < w / W))).map g).sum := by
  induction l with
  | nil => simp
  | cons a t ih =>
    by_cases h : 0 < a / W <;>
      simp [h, ih, List.filter_cons]

/-- C7: for a non-empty particle set with non-negative weights and positive
total weight `W`, `computePoseEntropy` equals
`-Σ (w/W) * log (w/W)` over the particles with `w/W > 0`, is non-negative,
and is exactly `0` when a single particle holds all the weight. -/
theorem computePoseEntropy_spec (ws : List ℝ) (hne : ws ≠ [])
    (hnn : ∀ w ∈ ws, 0 ≤ w) (hpos : 0 < ws.sum) :
    computePoseEntropy ws =
      -(((ws.filter (fun w => decide (0 < w / ws.sum))).map
          (fun w => w / ws.sum * Real.log (w / ws.sum))).sum) ∧
    0 ≤ computePoseEntropy ws ∧
    ((∀ w ∈ ws, w = 0 ∨ w = ws.sum) → computePoseEntropy ws = 0) := by
  refine ⟨?_, ?_, ?_⟩
  · unfold computePoseEntropy
    simp only [gt_iff_lt]
    rw [sum_map_if_filter]
  · unfold computePoseEntropy
    simp only [gt_iff_lt, neg_nonneg]
    apply list_sum_nonpos
    intro x hx
    rcases List.mem_map.mp hx with ⟨w, hw, rfl⟩
    by_cases hq : 0 < w / ws.sum
    · rw [if_pos hq]
      have hle : w / ws.sum ≤ 1 := by
        rw [div_le_one hpos]
        exact List.single_le_sum hnn w hw
      have hlog : Real.log (w / ws.sum) ≤ 0 :=
        Real.log_nonpos (le_of_lt hq) hle
      nlinarith
    · rw [if_neg hq]
  · intro hall
    unfold computePoseEntropy
    simp only [gt_iff_lt, neg_eq_zero]
    apply List.sum_eq_zero
    intro x hx
    rcases List.mem_map.mp hx with ⟨w, hw, rfl⟩
    rcases hall w hw with hzero | htotal
    · simp [hzero]
    · have hone : w / ws.sum = 1 := by
        rw [htotal]
        exact div_self (ne_of_gt hpos)
      simp [hone]

/-- Witness for C7: two particles, all weight on the first. -/
theorem computePoseEntropy_spec_witness :
    0 ≤ computePoseEntropy [2, 0] ∧ computePoseEntropy [2, 0] = 0 := by
  have hne : ([2, 0] : List ℝ) ≠ [] := by simp
  have hnn : ∀ w ∈ ([2, 0] : List ℝ), 0 ≤ w := by
    intro w hw
    simp only [List.mem_cons, List.not_mem_nil, or_false] at hw
    rcases hw with h | h <;> simp [h]
  have hpos : (0 : ℝ) < ([2, 0] : List ℝ).sum := by
    norm_num
  have hhold : ∀ w ∈ ([2, 0] : List ℝ), w = 0 ∨ w = ([2, 0] : List ℝ).sum := by
    intro w hw
    simp only [List.mem_cons, List.not_mem_nil, or_false] at hw
    rcases hw with h | h
    · right; rw [h]; norm_num
    · left; exact h
  exact ⟨(computePoseEntropy_spec [2, 0] hne hnn hpos).2.1,
    (computePoseEntropy_spec [2, 0] hne hnn hpos).2.2 hhold⟩

end SlamGMapping
